import Mathlib

/-!
Shallow embedding of `parsimony/functions/taylor.py` (module
`parsimony.functions.taylor`): first-order Taylor approximations of
differentiable objective functions and the composite wrapping engine
`FirstOrderTaylorWrapper`.

Modelling conventions:
* numpy scalars are modelled as rationals (`ℚ`), numpy column vectors as
  `List ℚ`; `np.dot(g.T, v)[0, 0]` and `np.dot(g, v)` are the inner product.
* Python objects that are mutated in place are modelled as Lean structures
  threaded explicitly through the operations; a method that mutates `self`
  returns the updated structure (together with its result, when it has one).
* `raise RuntimeError(...)` / a Python `TypeError` are modelled with
  `Except String`.
* The external collaborator classes (`properties.Function`,
  `combinedfunctions.CombinedFunction`, the multiblock properties) live
  outside the given sources; per the published contract they expose
  `f`, `grad` (per block for multiblock functions) and the non-smooth parts
  `_non_f`, `_grad_non_f`.  They are modelled as records of those callables.
-/

/-- A numpy column vector `p`-by-1, modelled as a list of rationals. -/
abbrev Vec := List ℚ

/-- Inner product: `np.dot(a.T, b)[0, 0]` (and `np.dot(a, b)` for vectors). -/
def dot (a b : Vec) : ℚ := (List.zipWith (· * ·) a b).sum

/-- Elementwise vector subtraction `a - b`. -/
def vsub (a b : Vec) : Vec := List.zipWith (· - ·) a b

/-- Elementwise vector addition `a + b`. -/
def vadd (a b : Vec) : Vec := List.zipWith (· + ·) a b

theorem dot_vsub_self (g a : Vec) : dot g (vsub a a) = 0 := by
  induction a generalizing g with
  | nil => cases g <;> simp [dot, vsub]
  | cons x xs ih =>
    cases g with
    | nil => simp [dot, vsub]
    | cons y ys => simpa [dot, vsub] using ih ys

/-- Modelled from the spec: the consumed capability contract of a
single-block collaborator function (spec §6): `f(point) -> scalar`,
`grad(point) -> vector`.  Loss functions are stateless (module docstring),
so the collaborator is a pure pair of callables. -/
structure Func where
  f : Vec → ℚ
  grad : Vec → Vec

/-- The class `FirstOrderTaylorApproximation` (with its `BaseTaylor` part):
fields `function`, `point`, and the lazy caches `f_at_point`,
`grad_at_point` (`None` ↦ `Option.none`).

The two counters `fCalls` / `gradCalls` are pure instrumentation: they
count the invocations of the underlying collaborator's `f` and `grad`
(the call-counting stub collaborator of spec §8).  They influence nothing
else. -/
structure FirstOrderTaylorApproximation where
  function : Func
  point : Vec
  f_at_point : Option ℚ
  grad_at_point : Option Vec
  fCalls : ℕ
  gradCalls : ℕ

/-- `FirstOrderTaylorApproximation.reset`: `BaseTaylor.reset` clears
`f_at_point` (the underlying collaborator is stateless, so its own
`reset()` is a no-op), and the subclass override additionally clears
`grad_at_point`. -/
def FirstOrderTaylorApproximation.reset (s : FirstOrderTaylorApproximation) :
    FirstOrderTaylorApproximation :=
  { s with f_at_point := none, grad_at_point := none }

/-- `BaseTaylor.at_point(point)`: store the new expansion point, then
`self.reset()`. -/
def FirstOrderTaylorApproximation.at_point (s : FirstOrderTaylorApproximation)
    (point : Vec) : FirstOrderTaylorApproximation :=
  FirstOrderTaylorApproximation.reset { s with point := point }

/-- `FirstOrderTaylorApproximation.__init__(function, point)`: stores the
function, calls `at_point(point)` and `reset()`, so both caches start
empty.  The instrumentation counters start at zero. -/
def FirstOrderTaylorApproximation.make (function : Func) (point : Vec) :
    FirstOrderTaylorApproximation :=
  FirstOrderTaylorApproximation.at_point
    { function := function, point := point, f_at_point := none,
      grad_at_point := none, fCalls := 0, gradCalls := 0 } point

/-- `FirstOrderTaylorApproximation._precompute`: first the `BaseTaylor`
part fills `f_at_point` if it is `None`, then the subclass part fills
`grad_at_point` if it is `None`.  Each actual call of `function.f` /
`function.grad` bumps the corresponding instrumentation counter. -/
def FirstOrderTaylorApproximation.precompute
    (s : FirstOrderTaylorApproximation) : FirstOrderTaylorApproximation :=
  let s1 :=
    match s.f_at_point with
    | none => { s with f_at_point := some (s.function.f s.point),
                       fCalls := s.fCalls + 1 }
    | some _ => s
  match s1.grad_at_point with
  | none => { s1 with grad_at_point := some (s1.function.grad s1.point),
                      gradCalls := s1.gradCalls + 1 }
  | some _ => s1

/-- `FirstOrderTaylorApproximation.f(w)`:
`self._precompute(); return self.f_at_point + np.dot(self.grad_at_point, w - self.point)`.
Returns the mutated object together with the value. -/
def FirstOrderTaylorApproximation.f (s : FirstOrderTaylorApproximation)
    (w : Vec) : FirstOrderTaylorApproximation × ℚ :=
  let s := s.precompute
  (s, s.f_at_point.getD 0 + dot (s.grad_at_point.getD []) (vsub w s.point))

/-- `FirstOrderTaylorApproximation.grad(w)`:
`self._precompute(); return self.grad_at_point` — the argument `w` is
never consulted. -/
def FirstOrderTaylorApproximation.grad (s : FirstOrderTaylorApproximation)
    (w : Vec) : FirstOrderTaylorApproximation × Vec :=
  let s := s.precompute
  (s, s.grad_at_point.getD [])

example :
    ((FirstOrderTaylorApproximation.make ⟨fun v => dot v v, fun v => v⟩
      [3]).f [3]).2 = 9 := by
  simp [FirstOrderTaylorApproximation.make, FirstOrderTaylorApproximation.f,
    FirstOrderTaylorApproximation.precompute,
    FirstOrderTaylorApproximation.at_point,
    FirstOrderTaylorApproximation.reset, dot, vsub]
  norm_num

example :
    ((FirstOrderTaylorApproximation.make ⟨fun v => dot v v, fun v => v⟩
      [3]).f [5]).2 = 9 + dot [3] (vsub [5] [3]) := by
  simp [FirstOrderTaylorApproximation.make, FirstOrderTaylorApproximation.f,
    FirstOrderTaylorApproximation.precompute,
    FirstOrderTaylorApproximation.at_point,
    FirstOrderTaylorApproximation.reset, dot, vsub]
  norm_num

/-! ## The wrapping engine `FirstOrderTaylorWrapper` -/

/-- The double-wrap error message raised by `_wrap` / `_mb_wrap`. -/
def doubleWrapMsg : String :=
  "RuntimeError: The function appears to already be a Taylor approximation!"

/-- A single-block Python function object as seen by
`FirstOrderTaylorWrapper._wrap`: its original `f`/`grad` methods, the three
Taylor marker attributes (absent ↦ `none`), whether it is an instance of
`combinedfunctions.CombinedFunction` (and, in that case, its smooth part
`_f`/`_grad_f` and non-smooth part `_non_f`/`_grad_non_f`, modelled from the
spec's collaborator contract since `combinedfunctions` is outside the given
sources), and whether it is an instance of `BaseTaylor` (the flag the
composite traversal dispatches on). -/
structure PyFun where
  f : Vec → ℚ
  grad : Vec → Vec
  isCombined : Bool
  smooth_f : Vec → ℚ
  smooth_grad : Vec → Vec
  non_f : Vec → ℚ
  grad_non_f : Vec → Vec
  isBaseTaylor : Bool
  taylor_point : Option Vec
  taylor_f_at_point : Option ℚ
  taylor_grad_f_at_point : Option Vec

instance : Inhabited PyFun :=
  ⟨⟨fun _ => 0, fun _ => [], false, fun _ => 0, fun _ => [], fun _ => 0,
    fun _ => [], false, none, none, none⟩⟩

/-- `FirstOrderTaylorWrapper._wrap(fun, point)`, marker handling: each of
the three marker attributes is checked in order; if present the
`RuntimeError` is raised, otherwise the attribute is set
(`_taylor_f_at_point` from `fun._f(point)` for a `CombinedFunction`, else
from `fun.f(point)`; likewise for the gradient).  The rebinding of the
`f`/`grad` methods is modelled by `newF` / `newGrad` below, which read
exactly these marker fields. -/
def FirstOrderTaylorWrapper.wrap (g : PyFun) (point : Vec) :
    Except String PyFun :=
  if g.taylor_point.isSome then Except.error doubleWrapMsg
  else
    let g := { g with taylor_point := some point }
    if g.taylor_f_at_point.isSome then Except.error doubleWrapMsg
    else
      let fAt := if g.isCombined then g.smooth_f point else g.f point
      let g := { g with taylor_f_at_point := some fAt }
      if g.taylor_grad_f_at_point.isSome then Except.error doubleWrapMsg
      else
        let gAt := if g.isCombined then g.smooth_grad point else g.grad point
        Except.ok { g with taylor_grad_f_at_point := some gAt }

/-- `new_f` installed by `_wrap`:
`val = _taylor_f_at_point + np.dot(_taylor_grad_f_at_point.T, x - _taylor_point)`,
plus `self._non_f(x)` when the object is a `CombinedFunction`; `val[0, 0]`
is the scalar extraction. -/
def FirstOrderTaylorWrapper.newF (g : PyFun) (x : Vec) : ℚ :=
  let val := g.taylor_f_at_point.getD 0
    + dot (g.taylor_grad_f_at_point.getD []) (vsub x (g.taylor_point.getD []))
  if g.isCombined then val + g.non_f x else val

/-- `new_grad` installed by `_wrap`: `grad = _taylor_grad_f_at_point`,
plus `self._grad_non_f(x)` when the object is a `CombinedFunction`. -/
def FirstOrderTaylorWrapper.newGrad (g : PyFun) (x : Vec) : Vec :=
  let grad := g.taylor_grad_f_at_point.getD []
  if g.isCombined then vadd grad (g.grad_non_f x) else grad

/-- A multiblock Python function object as seen by
`FirstOrderTaylorWrapper._mb_wrap`: `_f`/`_grad_f` take the full list of
per-block points (gradient per block index), `_non_f` is the non-smooth
part read by the installed `new_f` (collaborator contract, spec §6), plus
the three Taylor marker attributes and the `BaseTaylor` instance flag. -/
structure MbSub where
  base_f : List Vec → ℚ
  base_grad_f : List Vec → ℕ → Vec
  non_f : Vec → ℚ
  isBaseTaylor : Bool
  taylor_point : Option (List Vec)
  taylor_f_at_point : Option ℚ
  taylor_grad_f_at_point : Option (List Vec)

instance : Inhabited MbSub :=
  ⟨⟨fun _ => 0, fun _ _ => [], fun _ => 0, false, none, none, none⟩⟩

/-- `FirstOrderTaylorWrapper._mb_wrap(fun, point)`, marker handling: the
same three ordered checks as `_wrap`; `_taylor_f_at_point := fun._f(point)`
and `_taylor_grad_f_at_point[i] := fun._grad_f(point, i)` for
`i in range(len(point))`. -/
def FirstOrderTaylorWrapper.mb_wrap (g : MbSub) (point : List Vec) :
    Except String MbSub :=
  if g.taylor_point.isSome then Except.error doubleWrapMsg
  else
    let g := { g with taylor_point := some point }
    if g.taylor_f_at_point.isSome then Except.error doubleWrapMsg
    else
      let g := { g with taylor_f_at_point := some (g.base_f point) }
      if g.taylor_grad_f_at_point.isSome then Except.error doubleWrapMsg
      else
        let grAt := (List.range point.length).map (fun i => g.base_grad_f point i)
        Except.ok { g with taylor_grad_f_at_point := some grAt }

/-- `new_f` installed by `_mb_wrap`:
`val = 0.0`, then `for i in range(len(_taylor_point)): val +=
_taylor_f_at_point + np.dot(_taylor_grad_f_at_point[i].T, x - _taylor_point[i])`,
then `val += self._non_f(x)`; `val[0, 0]` is the scalar extraction.
Note the source adds `_taylor_f_at_point` once per loop iteration. -/
def FirstOrderTaylorWrapper.mbNewF (g : MbSub) (x : Vec) : ℚ :=
  let pt := g.taylor_point.getD []
  let gr := g.taylor_grad_f_at_point.getD []
  ((List.range pt.length).foldl
    (fun val i => val + (g.taylor_f_at_point.getD 0
      + dot (gr.getD i []) (vsub x (pt.getD i [])))) 0) + g.non_f x

/-- `FirstOrderTaylorWrapper.__call__`, branch
`isinstance(fun, multiblockprops.MultiblockFunction)`: after the deep copy
(value copy here) the object is wrapped with `_mb_wrap`. -/
def FirstOrderTaylorWrapper.callMultiblock (g : MbSub) (point : List Vec) :
    Except String MbSub :=
  FirstOrderTaylorWrapper.mb_wrap g point

/-- `FirstOrderTaylorWrapper.__call__`, final `else` branch (a plain
single-block function): after the deep copy the object is wrapped with
`_wrap`. -/
def FirstOrderTaylorWrapper.callPlain (g : PyFun) (point : Vec) :
    Except String PyFun :=
  FirstOrderTaylorWrapper.wrap g point

/-- `combinedfunctions.CombinedFunction` as traversed by
`FirstOrderTaylorWrapper.__call__`: the three flat lists of sub-functions
`_f` (loss terms), `_d` (decoupled penalties), `_N` (coupled penalties). -/
structure CombinedFunction where
  lossF : List PyFun
  lossD : List PyFun
  lossN : List PyFun

/-- In Python, `for i in LEN` where `LEN` is an `int` raises
`TypeError: int object is not iterable`.  The source's flat-composite
branch iterates `for i in len(fun._f)` (and likewise for `_d`, `_N`)
instead of `for i in range(len(...))`. -/
def pyIterInt (n : ℕ) : Except String (List ℕ) :=
  Except.error "TypeError: int is not iterable"

/-- One body step of the flat-composite traversal: `f = fun._f[i]; if
isinstance(f, BaseTaylor): fun._f[i] = self._wrap(f, point)`. -/
def FirstOrderTaylorWrapper.replaceStep (point : Vec) (acc : List PyFun)
    (i : ℕ) : Except String (List PyFun) :=
  let f := acc.getD i default
  if f.isBaseTaylor then do
    let w ← FirstOrderTaylorWrapper.wrap f point
    pure (acc.set i w)
  else pure acc

/-- `FirstOrderTaylorWrapper.__call__`, branch
`isinstance(fun, combinedfunctions.CombinedFunction)` (lines 149-176): the
deep copy is a value copy; then three loops `for i in len(fun._f)`,
`for i in len(fun._d)`, `for i in len(fun._N)` are executed.  Each loop
header iterates over an `int`, so the first one raises `TypeError` before
any entry is replaced; the subsequent loops and the installation of
`new_at_point` (lines 165-176) are unreachable. -/
def FirstOrderTaylorWrapper.callCombined (c : CombinedFunction) (point : Vec) :
    Except String CombinedFunction := do
  let fn := c
  let idxF ← pyIterInt fn.lossF.length
  let newLossF ← idxF.foldlM (FirstOrderTaylorWrapper.replaceStep point) fn.lossF
  let idxD ← pyIterInt fn.lossD.length
  let newLossD ← idxD.foldlM (FirstOrderTaylorWrapper.replaceStep point) fn.lossD
  let idxN ← pyIterInt fn.lossN.length
  let newLossN ← idxN.foldlM (FirstOrderTaylorWrapper.replaceStep point) fn.lossN
  pure { fn with lossF := newLossF, lossD := newLossD, lossN := newLossN }

/-! ## The class `MultiblockFirstOrderTaylorApproximation` -/

/-- Modelled from the spec: the consumed multiblock collaborator contract
(spec §6): `f(points_tuple) -> scalar`,
`grad(points_tuple, block_index) -> vector`. -/
structure MbFunc where
  f : List Vec → ℚ
  grad : List Vec → ℕ → Vec

/-- The class `MultiblockFirstOrderTaylorApproximation` (with its
`MultiblockBaseTaylor` part): `function`, the per-block expansion `point`,
the stored `indices`, and the lazy caches `f_at_point` (scalar) and
`grad_at_point` (one gradient per entry of `indices`).  The `indices`
stored here are the integer block indices of the claims' uses; the
constructor's aliasing behaviour on the raw Python argument list is
modelled separately by `MultiblockBaseTaylor.initIndices`. -/
structure MultiblockFirstOrderTaylorApproximation where
  function : MbFunc
  point : List Vec
  indices : List ℕ
  f_at_point : Option ℚ
  grad_at_point : Option (List Vec)

/-- `MultiblockFirstOrderTaylorApproximation.__init__(function, point,
indices)`: sets the function, calls `at_point(point)` (which resets) and
`reset()`, so both caches start empty; `self.indices = list(indices)`. -/
def MultiblockFirstOrderTaylorApproximation.make (function : MbFunc)
    (point : List Vec) (indices : List ℕ) :
    MultiblockFirstOrderTaylorApproximation :=
  { function := function, point := point, indices := indices,
    f_at_point := none, grad_at_point := none }

/-- The blocks of `point` selected by the stored indices:
`[self.point[self.indices[0]], self.point[self.indices[1]]]` — the source
hard-codes exactly the first two indices. -/
def MultiblockFirstOrderTaylorApproximation.selectedPoint
    (s : MultiblockFirstOrderTaylorApproximation) : List Vec :=
  [s.point.getD (s.indices.getD 0 0) [], s.point.getD (s.indices.getD 1 0) []]

/-- `MultiblockFirstOrderTaylorApproximation._precompute`: the
`MultiblockBaseTaylor` part fills `f_at_point` from
`function.f([point[indices[0]], point[indices[1]]])` if it is `None`; then
the subclass fills `grad_at_point[i] = function.grad([point[indices[0]],
point[indices[1]]], i)` for `i in range(len(indices))` if it is `None`. -/
def MultiblockFirstOrderTaylorApproximation.precompute
    (s : MultiblockFirstOrderTaylorApproximation) :
    MultiblockFirstOrderTaylorApproximation :=
  let s1 :=
    match s.f_at_point with
    | none => { s with f_at_point := some (s.function.f s.selectedPoint) }
    | some _ => s
  match s1.grad_at_point with
  | none =>
    let gr := (List.range s1.indices.length).map
      (fun i => s1.function.grad s1.selectedPoint i)
    { s1 with grad_at_point := some gr }
  | some _ => s1

/-- `MultiblockFirstOrderTaylorApproximation.f(w)`:
`f = self.f_at_point`, then for `i in range(len(self.indices))`:
`f = f + np.dot(self.grad_at_point[i].T, w[i] - self.point[self.indices[i]])[0, 0]`. -/
def MultiblockFirstOrderTaylorApproximation.f
    (s : MultiblockFirstOrderTaylorApproximation) (w : List Vec) :
    MultiblockFirstOrderTaylorApproximation × ℚ :=
  let s := s.precompute
  let gr := s.grad_at_point.getD []
  (s, (List.range s.indices.length).foldl
    (fun acc i => acc + dot (gr.getD i [])
      (vsub (w.getD i []) (s.point.getD (s.indices.getD i 0) [])))
    (s.f_at_point.getD 0))

/-- `MultiblockFirstOrderTaylorApproximation.grad(w, index)`:
`self._precompute(); return self.grad_at_point[index]` — `w` is never
consulted. -/
def MultiblockFirstOrderTaylorApproximation.grad
    (s : MultiblockFirstOrderTaylorApproximation) (w : List Vec) (index : ℕ) :
    MultiblockFirstOrderTaylorApproximation × Vec :=
  let s := s.precompute
  (s, (s.grad_at_point.getD []).getD index [])

/-! ## `MultiblockBaseTaylor.__init__` index-list handling -/

/-- A Python numeric value as it appears in an index list: an `int` or a
`float`. -/
inductive PyNum where
  | pint (n : ℤ)
  | pfloat (q : ℚ)
deriving DecidableEq

/-- Truncation toward zero of a rational, as Python's `int(float)`. -/
def ratTrunc (q : ℚ) : ℤ :=
  if 0 ≤ q.num then ((q.num.toNat / q.den : ℕ) : ℤ)
  else -(((-q.num).toNat / q.den : ℕ) : ℤ)

/-- Python's `int(...)` applied to a numeric value. -/
def pyIntOf : PyNum → PyNum
  | .pint n => .pint n
  | .pfloat q => .pint (ratTrunc q)

/-- The loop `for i in range(len(indices)): indices[i] = int(indices[i])`
of `MultiblockBaseTaylor.__init__`, mutating the caller's list in place:
`fuel` is the iteration count `len(indices)` computed once up front, `i`
the current index. -/
def coerceLoopAux : ℕ → ℕ → List PyNum → List PyNum
  | 0, _, cur => cur
  | fuel + 1, i, cur =>
    coerceLoopAux fuel (i + 1) (cur.set i (pyIntOf (cur.getD i (.pint 0))))

/-- The caller's `indices` list after `MultiblockBaseTaylor.__init__`
returns. -/
def coerceLoop (l : List PyNum) : List PyNum :=
  coerceLoopAux l.length 0 l

/-- `MultiblockBaseTaylor.__init__(function, point, indices)`, index
handling: first `self.indices = list(indices)` (a copy of the argument's
entries as they are at that moment), then the in-place coercion loop runs
on the caller's list.  Returns `(self.indices, caller's list after)`. -/
def MultiblockBaseTaylor.initIndices (indices : List PyNum) :
    List PyNum × List PyNum :=
  (indices, coerceLoop indices)

/-! ## The multiblock-composite branch of `FirstOrderTaylorWrapper.__call__`

Python objects are aliased through references, so the in-place mutation
of sub-functions is modelled with an explicit store: an address is an
index into a list of `MbSub` objects, and a
`CombinedMultiblockFunction` holds addresses of its sub-functions.
`copy.deepcopy` duplicates the whole object graph: every object gets a
fresh twin (here: at address `store.length + a`), and the copied
composite references only the twins. -/

abbrev Addr := ℕ

abbrev Store := List MbSub

/-- `multiblocklosses.CombinedMultiblockFunction` as traversed by
`FirstOrderTaylorWrapper.__call__`: loss terms `_f` indexed
`[i][j][k]`, decoupled penalties `_d` and coupled penalties `_N` indexed
`[i][k]`; the leaves are references (addresses) to sub-function objects. -/
structure CombinedMultiblockFunction where
  lossF : List (List (List Addr))
  lossD : List (List Addr)
  lossN : List (List Addr)

/-- Re-addressing of a composite under `copy.deepcopy`: every referenced
object gets the fresh twin address `n + a`. -/
def CombinedMultiblockFunction.shiftAddrs (c : CombinedMultiblockFunction)
    (n : ℕ) : CombinedMultiblockFunction :=
  { lossF := c.lossF.map (fun l => l.map (fun m => m.map (fun a => n + a))),
    lossD := c.lossD.map (fun m => m.map (fun a => n + a)),
    lossN := c.lossN.map (fun m => m.map (fun a => n + a)) }

/-- One step of the multiblock-composite traversal at one sub-function
reference: `if isinstance(x, BaseTaylor): container[...] = self._mb_wrap(x,
point)` — `_mb_wrap` mutates the referenced object in place (the
reassignment stores the same reference back), so the store is updated at
that address. -/
def FirstOrderTaylorWrapper.mbReplaceStep (point : List Vec) (σ : Store)
    (a : Addr) : Except String Store :=
  match σ.get? a with
  | none => Except.error "structural error: dangling sub-function reference"
  | some g =>
    if g.isBaseTaylor then
      match FirstOrderTaylorWrapper.mb_wrap g point with
      | Except.error e => Except.error e
      | Except.ok g' => Except.ok (σ.set a g')
    else Except.ok σ

/-- `FirstOrderTaylorWrapper.__call__`, branch
`isinstance(fun, multiblocklosses.CombinedMultiblockFunction)` (lines
178-218): `fun = copy.deepcopy(function)` duplicates the object graph
(modelled by appending a twin of every store entry and re-addressing the
composite), then the nested loops over `_f[i][j][k]`, `_d[i][k]`,
`_N[i][k]` (modelled by folds over the flattened address lists, which
visit the leaves in the same order) replace every `BaseTaylor` entry via
`_mb_wrap`; the final `fun.at_point` method rebinding (lines 203-218)
touches only the copy.  Returns the final store and the returned
composite. -/
def FirstOrderTaylorWrapper.callMbCombined (σ : Store)
    (c : CombinedMultiblockFunction) (point : List Vec) :
    Except String (Store × CombinedMultiblockFunction) :=
  match (c.shiftAddrs σ.length).lossF.flatten.flatten.foldlM
      (FirstOrderTaylorWrapper.mbReplaceStep point) (σ ++ σ) with
  | Except.error e => Except.error e
  | Except.ok σ2 =>
    match (c.shiftAddrs σ.length).lossD.flatten.foldlM
        (FirstOrderTaylorWrapper.mbReplaceStep point) σ2 with
    | Except.error e => Except.error e
    | Except.ok σ3 =>
      match (c.shiftAddrs σ.length).lossN.flatten.foldlM
          (FirstOrderTaylorWrapper.mbReplaceStep point) σ3 with
      | Except.error e => Except.error e
      | Except.ok σ4 => Except.ok (σ4, c.shiftAddrs σ.length)

/-! ## Claim theorems -/

/-- Claim C7: for every single-block Taylor approximation previously
centered at `a`, `recenter(b)` (the source's `at_point(b)`) clears both
caches, and a subsequent `value(b)` equals `f(b)`; the old cached value
and gradient are gone (the next `value`/`gradient` call recomputes from
`b`, as the last two conjuncts show for every argument `x`).  `at_point`
is a total function of the state — it returns no value and never fails. -/
theorem taylor_recenter_invalidates (s : FirstOrderTaylorApproximation)
    (b x : Vec) :
    (s.at_point b).f_at_point = none
    ∧ (s.at_point b).grad_at_point = none
    ∧ ((s.at_point b).f b).2 = s.function.f b
    ∧ ((s.at_point b).grad x).2 = s.function.grad b := by
  refine ⟨rfl, rfl, ?_, rfl⟩
  simp [FirstOrderTaylorApproximation.at_point,
    FirstOrderTaylorApproximation.reset, FirstOrderTaylorApproximation.f,
    FirstOrderTaylorApproximation.precompute, dot_vsub_self]

/-- Claim C8: for a multiblock Taylor approximation with
`block_indices = [0, 1]` around the per-block point `a`, `value([w0, w1])`
equals `f` at the selected blocks of `a` plus the two-term linear
expansion sum, and `gradient(w, 1)` returns exactly the cached gradient of
the second listed block. -/
theorem taylor_multiblock_two_block_expansion (fn : MbFunc) (a : List Vec)
    (w0 w1 : Vec) :
    ((MultiblockFirstOrderTaylorApproximation.make fn a [0, 1]).f [w0, w1]).2
      = fn.f [a.getD 0 [], a.getD 1 []]
        + dot (fn.grad [a.getD 0 [], a.getD 1 []] 0) (vsub w0 (a.getD 0 []))
        + dot (fn.grad [a.getD 0 [], a.getD 1 []] 1) (vsub w1 (a.getD 1 []))
    ∧ ((MultiblockFirstOrderTaylorApproximation.make fn a [0, 1]).grad
        [w0, w1] 1).2
      = fn.grad [a.getD 0 [], a.getD 1 []] 1 := by
  constructor <;> rfl

/-- Claim C5: the gradient of a first-order Taylor approximation built
around `a` equals `grad_f(a)` and is constant in the argument: for the
standalone class (`FirstOrderTaylorApproximation.grad`) and for the
engine's single-block wrap of a plain (non-composite, not yet wrapped)
function, whose installed `new_grad` returns the captured
`_taylor_grad_f_at_point`. -/
theorem taylor_gradient_constant (fn : Func) (g : PyFun) (p w w' : Vec)
    (hP : g.taylor_point = none) (hF : g.taylor_f_at_point = none)
    (hG : g.taylor_grad_f_at_point = none) (hC : g.isCombined = false) :
    ((FirstOrderTaylorApproximation.make fn p).grad w).2 = fn.grad p
    ∧ ((FirstOrderTaylorApproximation.make fn p).grad w).2
        = ((FirstOrderTaylorApproximation.make fn p).grad w').2
    ∧ (FirstOrderTaylorWrapper.wrap g p).map
        (fun g' => FirstOrderTaylorWrapper.newGrad g' w) = Except.ok (g.grad p)
    ∧ (FirstOrderTaylorWrapper.wrap g p).map
        (fun g' => FirstOrderTaylorWrapper.newGrad g' w)
      = (FirstOrderTaylorWrapper.wrap g p).map
        (fun g' => FirstOrderTaylorWrapper.newGrad g' w') := by
  refine ⟨rfl, rfl, ?_, ?_⟩ <;>
    simp [FirstOrderTaylorWrapper.wrap, FirstOrderTaylorWrapper.newGrad,
      Except.map, hP, hF, hG, hC]

/-- Concrete collaborator for the C5 witness. -/
def c5Fn : Func := ⟨fun v => dot v v, fun v => vadd v v⟩

/-- Concrete unwrapped plain function object for the C5 witness. -/
def c5G : PyFun :=
  { f := fun v => dot v v, grad := fun v => vadd v v, isCombined := false,
    smooth_f := fun _ => 0, smooth_grad := fun _ => [],
    non_f := fun _ => 0, grad_non_f := fun _ => [], isBaseTaylor := false,
    taylor_point := none, taylor_f_at_point := none,
    taylor_grad_f_at_point := none }

theorem taylor_gradient_constant_witness :
    (c5G.taylor_point = none ∧ c5G.taylor_f_at_point = none
      ∧ c5G.taylor_grad_f_at_point = none ∧ c5G.isCombined = false)
    ∧ (((FirstOrderTaylorApproximation.make c5Fn [2]).grad [7]).2
          = c5Fn.grad [2]
        ∧ ((FirstOrderTaylorApproximation.make c5Fn [2]).grad [7]).2
          = ((FirstOrderTaylorApproximation.make c5Fn [2]).grad [9]).2
        ∧ (FirstOrderTaylorWrapper.wrap c5G [2]).map
            (fun g' => FirstOrderTaylorWrapper.newGrad g' [7])
          = Except.ok (c5G.grad [2])
        ∧ (FirstOrderTaylorWrapper.wrap c5G [2]).map
            (fun g' => FirstOrderTaylorWrapper.newGrad g' [7])
          = (FirstOrderTaylorWrapper.wrap c5G [2]).map
            (fun g' => FirstOrderTaylorWrapper.newGrad g' [9])) :=
  ⟨⟨rfl, rfl, rfl, rfl⟩,
    taylor_gradient_constant c5Fn c5G [2] [7] [9] rfl rfl rfl rfl⟩

/-- Claim C4: wrapping a function that already carries any of the three
Taylor marker fields raises the double-wrap `RuntimeError`, for both the
single-block `_wrap` and the multiblock `_mb_wrap` routine; it is never
silently skipped. -/
theorem taylor_double_wrap_rejected (g : PyFun) (mg : MbSub) (p : Vec)
    (mp : List Vec)
    (h : g.taylor_point.isSome ∨ g.taylor_f_at_point.isSome
      ∨ g.taylor_grad_f_at_point.isSome)
    (hm : mg.taylor_point.isSome ∨ mg.taylor_f_at_point.isSome
      ∨ mg.taylor_grad_f_at_point.isSome) :
    FirstOrderTaylorWrapper.wrap g p = Except.error doubleWrapMsg
    ∧ FirstOrderTaylorWrapper.mb_wrap mg mp = Except.error doubleWrapMsg := by
  constructor
  · by_cases h1 : g.taylor_point.isSome
    · simp [FirstOrderTaylorWrapper.wrap, h1]
    · by_cases h2 : g.taylor_f_at_point.isSome
      · simp [FirstOrderTaylorWrapper.wrap, h1, h2]
      · have h3 : g.taylor_grad_f_at_point.isSome = true := by tauto
        simp [FirstOrderTaylorWrapper.wrap, h1, h2, h3]
  · by_cases h1 : mg.taylor_point.isSome
    · simp [FirstOrderTaylorWrapper.mb_wrap, h1]
    · by_cases h2 : mg.taylor_f_at_point.isSome
      · simp [FirstOrderTaylorWrapper.mb_wrap, h1, h2]
      · have h3 : mg.taylor_grad_f_at_point.isSome = true := by tauto
        simp [FirstOrderTaylorWrapper.mb_wrap, h1, h2, h3]

/-- Concrete already-marked single-block object for the C4 witness (it
carries only the cached-value marker, so the claim's "any of the three
fields" is exercised beyond the first check). -/
def c4G : PyFun :=
  { (default : PyFun) with taylor_f_at_point := some 5 }

/-- Concrete already-marked multiblock object for the C4 witness. -/
def c4Mg : MbSub :=
  { base_f := fun _ => 0, base_grad_f := fun _ _ => [], non_f := fun _ => 0,
    isBaseTaylor := true, taylor_point := some [[1]],
    taylor_f_at_point := none, taylor_grad_f_at_point := none }

theorem taylor_double_wrap_rejected_witness :
    ((c4G.taylor_point.isSome ∨ c4G.taylor_f_at_point.isSome
        ∨ c4G.taylor_grad_f_at_point.isSome)
      ∧ (c4Mg.taylor_point.isSome ∨ c4Mg.taylor_f_at_point.isSome
        ∨ c4Mg.taylor_grad_f_at_point.isSome))
    ∧ (FirstOrderTaylorWrapper.wrap c4G [0] = Except.error doubleWrapMsg
      ∧ FirstOrderTaylorWrapper.mb_wrap c4Mg [[0]]
          = Except.error doubleWrapMsg) :=
  ⟨⟨Or.inr (Or.inl rfl), Or.inl rfl⟩,
    taylor_double_wrap_rejected c4G c4Mg [0] [[0]]
      (Or.inr (Or.inl rfl)) (Or.inl rfl)⟩

/-- Concrete smooth loss entry for the C2 composite. -/
def c2Loss : PyFun :=
  { (default : PyFun) with f := fun v => dot v v, grad := fun v => vadd v v }

/-- Concrete non-smooth penalty entry for the C2 composite. -/
def c2Penalty : PyFun :=
  { (default : PyFun) with f := fun v => dot v (vadd v v) }

/-- Concrete flat composite of one smooth loss and one non-smooth penalty
for claim C2. -/
def c2Composite : CombinedFunction :=
  { lossF := [c2Loss], lossD := [], lossN := [c2Penalty] }

/-- Claim C2 (code bug): wrapping a flat composite of one smooth loss and
one non-smooth penalty never yields a value at all: the flat-composite
branch of `FirstOrderTaylorWrapper.__call__` iterates `for i in
len(fun._f)` — iteration over an `int` — so the call raises `TypeError`
instead of returning a composite whose value is
`f(a) + <grad_f(a), x-a> + g(x)`. -/
theorem taylor_flat_composite_wrap_raises :
    FirstOrderTaylorWrapper.callCombined c2Composite [0]
      = Except.error "TypeError: int is not iterable" := rfl

/-- Claim C3 (code bug): for every flat composite and every point, the
flat-composite branch of the engine raises the iteration `TypeError`
before replacing a single entry of `_f`/`_d`/`_N` and before installing
the composite-level `recenter`; no wrapped composite is ever returned. -/
theorem taylor_flat_composite_never_replaced (c : CombinedFunction)
    (point : Vec) :
    FirstOrderTaylorWrapper.callCombined c point
      = Except.error "TypeError: int is not iterable" := rfl

/-- Concrete plain multiblock function for claim C1: `f ≡ 1`, zero
gradients, zero non-smooth part, two-block expansion point. -/
def c1Sub : MbSub :=
  { base_f := fun _ => 1, base_grad_f := fun _ _ => [0],
    non_f := fun _ => 0, isBaseTaylor := true, taylor_point := none,
    taylor_f_at_point := none, taylor_grad_f_at_point := none }

/-- Claim C1 (code bug): evaluating the multiblock engine wrap at the
point used to wrap does not return `f(a)`.  With the two-block expansion
point `[[0], [0]]` and `f ≡ 1`, the installed `new_f` adds
`_taylor_f_at_point` once per block inside its loop (plus the
unconditional `_non_f` term), so the value at the center is `2`, while
the underlying function's value there is `1`. -/
theorem taylor_mb_value_at_center_bug :
    (FirstOrderTaylorWrapper.callMultiblock c1Sub [[0], [0]]).map
      (fun g => FirstOrderTaylorWrapper.mbNewF g [0]) = Except.ok 2
    ∧ c1Sub.base_f [[0], [0]] = 1
    ∧ (2 : ℚ) ≠ 1 := by
  refine ⟨?_, rfl, by norm_num⟩
  simp [FirstOrderTaylorWrapper.callMultiblock, FirstOrderTaylorWrapper.mb_wrap,
    FirstOrderTaylorWrapper.mbNewF, c1Sub, Except.map, dot, vsub,
    List.range_succ]
  norm_num

/-! ## Call sequences against a single-block approximation (claim C6) -/

/-- One external call against a `FirstOrderTaylorApproximation`: `value(w)`
or `gradient(w)` (no intervening recenter). -/
inductive TaylorOp where
  | value (w : Vec)
  | gradient (w : Vec)

/-- Run a sequence of `value`/`gradient` calls, threading the mutated
object. -/
def FirstOrderTaylorApproximation.run (s : FirstOrderTaylorApproximation) :
    List TaylorOp → FirstOrderTaylorApproximation
  | [] => s
  | TaylorOp.value w :: ops => FirstOrderTaylorApproximation.run (s.f w).1 ops
  | TaylorOp.gradient w :: ops =>
    FirstOrderTaylorApproximation.run (s.grad w).1 ops

/-- Cache/counter invariant: the underlying `f`/`grad` have been invoked
at most once, and not at all while the corresponding cache is empty. -/
def cacheCounterInv (s : FirstOrderTaylorApproximation) : Prop :=
  s.fCalls ≤ 1 ∧ s.gradCalls ≤ 1
  ∧ (s.f_at_point = none → s.fCalls = 0)
  ∧ (s.grad_at_point = none → s.gradCalls = 0)

theorem precompute_cacheCounterInv (s : FirstOrderTaylorApproximation)
    (h : cacheCounterInv s) : cacheCounterInv s.precompute := by
  obtain ⟨h1, h2, h3, h4⟩ := h
  unfold FirstOrderTaylorApproximation.precompute
  cases hf : s.f_at_point <;> cases hg : s.grad_at_point <;>
    simp_all [cacheCounterInv]

theorem run_cacheCounterInv (ops : List TaylorOp) :
    ∀ s : FirstOrderTaylorApproximation, cacheCounterInv s →
      cacheCounterInv (s.run ops) := by
  induction ops with
  | nil => intro s h; exact h
  | cons op ops ih =>
    intro s h
    cases op with
    | value w => exact ih _ (precompute_cacheCounterInv s h)
    | gradient w => exact ih _ (precompute_cacheCounterInv s h)

/-- Claim C6: over every sequence of `value` and `gradient` calls on a
freshly constructed (equivalently: freshly recentered) single-block Taylor
approximation, with no intervening recenter, the underlying collaborator's
`f` and `grad` are each invoked at most once — all later calls reuse the
caches regardless of their arguments. -/
theorem taylor_lazy_cache_at_most_once (fn : Func) (p : Vec)
    (ops : List TaylorOp) :
    ((FirstOrderTaylorApproximation.make fn p).run ops).fCalls ≤ 1
    ∧ ((FirstOrderTaylorApproximation.make fn p).run ops).gradCalls ≤ 1 := by
  have h := run_cacheCounterInv ops (FirstOrderTaylorApproximation.make fn p)
    ⟨by simp [FirstOrderTaylorApproximation.make,
        FirstOrderTaylorApproximation.at_point,
        FirstOrderTaylorApproximation.reset],
      by simp [FirstOrderTaylorApproximation.make,
        FirstOrderTaylorApproximation.at_point,
        FirstOrderTaylorApproximation.reset],
      fun _ => rfl, fun _ => rfl⟩
  exact ⟨h.1, h.2.1⟩

theorem coerceLoopAux_eq (fuel : ℕ) :
    ∀ (i : ℕ) (cur : List PyNum), i + fuel = cur.length →
      coerceLoopAux fuel i cur = cur.take i ++ (cur.drop i).map pyIntOf := by
  induction fuel with
  | zero =>
    intro i cur h
    have hi : i = cur.length := by omega
    subst hi
    simp [coerceLoopAux]
  | succ fuel ih =>
    intro i cur h
    have hi : i < cur.length := by omega
    have hget : cur.getD i (.pint 0) = cur[i] := List.getD_eq_getElem cur _ hi
    rw [coerceLoopAux, hget]
    have hlen' : (i + 1) + fuel = (cur.set i (pyIntOf cur[i])).length := by
      simp only [List.length_set]; omega
    rw [ih (i + 1) _ hlen']
    have hset : cur.set i (pyIntOf cur[i])
        = cur.take i ++ pyIntOf cur[i] :: cur.drop (i + 1) := by
      rw [List.set_eq_take_append_cons_drop]
      simp [hi]
    have hlt : (cur.take i).length = i := by
      simp [List.length_take, Nat.min_eq_left hi.le]
    have htake : (cur.set i (pyIntOf cur[i])).take (i + 1)
        = cur.take i ++ [pyIntOf cur[i]] := by
      rw [hset]
      calc (cur.take i ++ pyIntOf cur[i] :: cur.drop (i + 1)).take (i + 1)
          = (cur.take i ++ pyIntOf cur[i] :: cur.drop (i + 1)).take
              ((cur.take i).length + 1) := by rw [hlt]
        _ = cur.take i ++ (pyIntOf cur[i] :: cur.drop (i + 1)).take 1 :=
            List.take_append 1
        _ = cur.take i ++ [pyIntOf cur[i]] := by simp
    have hdrop : (cur.set i (pyIntOf cur[i])).drop (i + 1) = cur.drop (i + 1) := by
      rw [List.drop_set]
      simp
    have hdropi : cur.drop i = cur[i] :: cur.drop (i + 1) :=
      List.drop_eq_getElem_cons hi
    rw [htake, hdrop, hdropi]
    simp
    rw [List.drop_eq_getElem_cons
      (show i < (List.map pyIntOf cur).length by simpa using hi)]
    simp

/-- Claim C10: `MultiblockBaseTaylor.__init__` copies the indices list
into `self.indices` first and then runs the in-place `int(...)` coercion
loop on the caller's list: the stored list keeps the original (possibly
non-integer) entries, while the caller's argument list ends up with every
entry replaced by `int(entry)` — a side effect of construction. -/
theorem taylor_indices_constructor_mutates_caller (idx : List PyNum) :
    (MultiblockBaseTaylor.initIndices idx).1 = idx
    ∧ (MultiblockBaseTaylor.initIndices idx).2 = idx.map pyIntOf := by
  refine ⟨rfl, ?_⟩
  show coerceLoop idx = idx.map pyIntOf
  unfold coerceLoop
  simpa using coerceLoopAux_eq idx.length 0 idx (by simp)

example :
    (MultiblockBaseTaylor.initIndices [.pfloat (3 / 2), .pint 0]).1
      = [.pfloat (3 / 2), .pint 0]
    ∧ (MultiblockBaseTaylor.initIndices [.pfloat (3 / 2), .pint 0]).2
      = [.pint 1, .pint 0] := by
  constructor
  · rfl
  · show coerceLoop _ = _
    norm_num [coerceLoop, coerceLoopAux, pyIntOf, ratTrunc]

theorem take_set_of_le {α : Type} (l : List α) (i n : ℕ) (a : α) (h : n ≤ i) :
    (l.set i a).take n = l.take n := by
  induction l generalizing i n with
  | nil => simp
  | cons x xs ih =>
    cases i with
    | zero =>
      have hn : n = 0 := Nat.le_zero.mp h
      subst hn
      simp
    | succ i =>
      cases n with
      | zero => simp
      | succ n =>
        simp only [List.set_cons_succ, List.take_succ_cons]
        rw [ih i n (Nat.succ_le_succ_iff.mp h)]

theorem mbReplaceStep_take (point : List Vec) (σ σ' : Store) (a : Addr)
    (n : ℕ) (hn : n ≤ a)
    (h : FirstOrderTaylorWrapper.mbReplaceStep point σ a = Except.ok σ') :
    σ'.take n = σ.take n := by
  unfold FirstOrderTaylorWrapper.mbReplaceStep at h
  split at h
  · exact Except.noConfusion h
  · split at h
    · split at h
      · exact Except.noConfusion h
      · cases h
        exact take_set_of_le σ a n _ hn
    · cases h
      rfl

theorem foldlM_replaceStep_take (point : List Vec) :
    ∀ (as : List Addr) (σ σ' : Store) (n : ℕ),
      (∀ a ∈ as, n ≤ a) →
      as.foldlM (FirstOrderTaylorWrapper.mbReplaceStep point) σ
        = Except.ok σ' →
      σ'.take n = σ.take n := by
  intro as
  induction as with
  | nil =>
    intro σ σ' n _ h
    rw [List.foldlM_nil] at h
    cases h
    rfl
  | cons a as ih =>
    intro σ σ' n hall h
    rw [List.foldlM_cons] at h
    cases hs : FirstOrderTaylorWrapper.mbReplaceStep point σ a with
    | error e =>
      rw [hs] at h
      exact Except.noConfusion h
    | ok σ1 =>
      rw [hs] at h
      have h' : as.foldlM (FirstOrderTaylorWrapper.mbReplaceStep point) σ1
          = Except.ok σ' := h
      have t1 := mbReplaceStep_take point σ σ1 a n
        (hall a (List.mem_cons_self a as)) hs
      have t2 := ih σ1 σ' n (fun b hb => hall b (List.mem_cons_of_mem a hb)) h'
      rw [t2, t1]

theorem shiftAddrs_lossF_flatten (c : CombinedMultiblockFunction) (n : ℕ) :
    (c.shiftAddrs n).lossF.flatten.flatten
      = c.lossF.flatten.flatten.map (fun a => n + a) := by
  simp only [CombinedMultiblockFunction.shiftAddrs]
  rw [← List.map_flatten, ← List.map_flatten]

theorem shiftAddrs_lossD_flatten (c : CombinedMultiblockFunction) (n : ℕ) :
    (c.shiftAddrs n).lossD.flatten
      = c.lossD.flatten.map (fun a => n + a) := by
  simp only [CombinedMultiblockFunction.shiftAddrs]
  rw [← List.map_flatten]

theorem shiftAddrs_lossN_flatten (c : CombinedMultiblockFunction) (n : ℕ) :
    (c.lossN.map (fun m => m.map (fun a => n + a))).flatten
      = c.lossN.flatten.map (fun a => n + a) := by
  rw [← List.map_flatten]

/-- Claim C9: the wrapping engine operates on a deep copy.  For the
multiblock-composite branch (the composite branch that returns), whenever
`__call__` returns, the store entries of the original composite's
sub-functions — every address that existed before the call — are exactly
as before: all `_mb_wrap` mutations hit only the fresh twin objects made
by `copy.deepcopy`, and the returned composite references only those
twins. -/
theorem taylor_wrap_engine_preserves_original (σ : Store)
    (c : CombinedMultiblockFunction) (point : List Vec) (σ' : Store)
    (c' : CombinedMultiblockFunction)
    (h : FirstOrderTaylorWrapper.callMbCombined σ c point
      = Except.ok (σ', c')) :
    σ'.take σ.length = σ ∧ c' = c.shiftAddrs σ.length := by
  unfold FirstOrderTaylorWrapper.callMbCombined at h
  have hallF : ∀ a ∈ (c.shiftAddrs σ.length).lossF.flatten.flatten,
      σ.length ≤ a := by
    intro a ha
    rw [shiftAddrs_lossF_flatten] at ha
    obtain ⟨b, _, rfl⟩ := List.mem_map.mp ha
    exact Nat.le_add_right _ _
  have hallD : ∀ a ∈ (c.shiftAddrs σ.length).lossD.flatten,
      σ.length ≤ a := by
    intro a ha
    rw [shiftAddrs_lossD_flatten] at ha
    obtain ⟨b, _, rfl⟩ := List.mem_map.mp ha
    exact Nat.le_add_right _ _
  have hallN : ∀ a ∈ (c.shiftAddrs σ.length).lossN.flatten,
      σ.length ≤ a := by
    intro a ha
    simp only [CombinedMultiblockFunction.shiftAddrs] at ha
    rw [shiftAddrs_lossN_flatten] at ha
    obtain ⟨b, _, rfl⟩ := List.mem_map.mp ha
    exact Nat.le_add_right _ _
  split at h
  next e heqF => exact Except.noConfusion h
  next σ2 heqF =>
    split at h
    next e heqD => exact Except.noConfusion h
    next σ3 heqD =>
      split at h
      next e heqN => exact Except.noConfusion h
      next σ4 heqN =>
        injection h with h2
        have hfst := congrArg Prod.fst h2
        have hsnd := congrArg Prod.snd h2
        simp only [] at hfst hsnd
        subst hfst
        subst hsnd
        refine ⟨?_, rfl⟩
        have tF := foldlM_replaceStep_take point _ (σ ++ σ) σ2 σ.length
          hallF heqF
        have tD := foldlM_replaceStep_take point _ σ2 σ3 σ.length hallD heqD
        have tN := foldlM_replaceStep_take point _ σ3 σ4 σ.length hallN heqN
        rw [tN, tD, tF, List.take_left]

/-- Concrete wrappable sub-function for the C9 witness. -/
def c9Sub : MbSub :=
  { base_f := fun _ => 0, base_grad_f := fun _ _ => [], non_f := fun _ => 0,
    isBaseTaylor := true, taylor_point := none, taylor_f_at_point := none,
    taylor_grad_f_at_point := none }

/-- Concrete one-object store for the C9 witness. -/
def c9Store : Store := [c9Sub]

/-- Concrete multiblock composite (one loss entry at address 0) for the
C9 witness. -/
def c9C : CombinedMultiblockFunction :=
  { lossF := [[[0]]], lossD := [], lossN := [] }

/-- The result of the C9 witness call. -/
def c9Res : Store × CombinedMultiblockFunction :=
  (FirstOrderTaylorWrapper.callMbCombined c9Store c9C [[1], [2]]).toOption.getD
    ([], ⟨[], [], []⟩)

theorem taylor_wrap_engine_preserves_original_witness :
    FirstOrderTaylorWrapper.callMbCombined c9Store c9C [[1], [2]]
      = Except.ok (c9Res.1, c9Res.2)
    ∧ c9Res.1.take c9Store.length = c9Store :=
  ⟨rfl,
    (taylor_wrap_engine_preserves_original c9Store c9C [[1], [2]] c9Res.1
      c9Res.2 rfl).1⟩
